import Mathlib

/-! Verification of the caching geocode-enrichment stage of the icewatch
repository (`src/icewatch/geocode_facilities.py` together with the two
concrete providers `src/icewatch/geocode/mapbox.py` and
`src/icewatch/geocode/nomination.py`).

The Python code is shallowly embedded: the JSON cache file becomes an
association list from address-key strings to values that are either a
well-formed coordinate pair or JSON `null`; the per-record loop of `main`
becomes a fold that also records a trace of observable events (cache hits,
provider calls, sleeps, cache puts and invalidations); the two provider
functions become pure functions of an abstract HTTP exchange outcome.
-/

namespace Icewatch

/-- A well-formed coordinate pair, the `{"lat": ..., "lon": ...}` JSON object
the providers produce.  The numeric payload is inert for the stage (it is
only moved around, never computed with), so it is carried as integers. -/
structure Coordinates where
  lat : Int
  lon : Int
deriving DecidableEq, Repr

/-- A value stored in the cache JSON object: either a well-formed coordinate
pair or JSON `null` (`None` once loaded into Python). -/
abbrev CacheValue := Option Coordinates

/-- The geocode cache, a JSON object loaded into a Python dict: an
insertion-ordered association list from address keys to cache values. -/
abbrev Cache := List (String × CacheValue)

/-- Dict lookup: `cache[k]` when present.  `none` means the key is absent;
`some none` means the key is present and maps to JSON `null`. -/
def Cache.lookup : Cache → String → Option CacheValue
  | [], _ => none
  | (k, v) :: rest, key => if k = key then some v else Cache.lookup rest key

/-- Dict membership test, `address in cache`. -/
def Cache.mem (c : Cache) (key : String) : Bool :=
  (c.lookup key).isSome

/-- Dict assignment `cache[k] = v`: overwrites in place when the key exists
(Python dicts keep the original insertion position), appends otherwise. -/
def Cache.insert : Cache → String → CacheValue → Cache
  | [], key, v => [(key, v)]
  | (k, w) :: rest, key, v =>
    if k = key then (k, v) :: rest else (k, w) :: Cache.insert rest key v

/-- Dict deletion `del cache[k]` (the code only calls it after checking
`address in cache`, so deleting an absent key never happens in a run). -/
def Cache.erase : Cache → String → Cache
  | [], _ => []
  | (k, w) :: rest, key =>
    if k = key then rest else (k, w) :: Cache.erase rest key

/-- A facility record.  The four address components mirror
`facility.get("Address", "")` etc. (`none` = key absent); `other` carries
every remaining field untouched by this stage; `latitude`/`longitude` are
the two fields the stage assigns (possibly to JSON `null` = `none`). -/
structure Facility where
  address? : Option String
  city? : Option String
  state? : Option String
  zip? : Option String
  other : List (String × String)
  latitude : Option Int
  longitude : Option Int
deriving DecidableEq, Repr

/-- Python's `str.strip()`: drop whitespace from both ends. -/
def pyStrip (s : String) : String :=
  ⟨((s.data.dropWhile Char.isWhitespace).reverse.dropWhile
      Char.isWhitespace).reverse⟩

/-- Embeds `build_address` from `geocode_facilities.py`: strip the four components,
drop the falsy/blank ones, join with `", "`. -/
def build_address (f : Facility) : String :=
  let parts : List String :=
    [f.address?.getD "", f.city?.getD "", f.state?.getD "", f.zip?.getD ""]
  String.intercalate ", "
    ((parts.filter fun p => p ≠ "" ∧ pyStrip p ≠ "").map pyStrip)

/-- The error a provider function raises, as seen through `requests`:
the exception classes that can escape `query_mapbox`/`geocode_address`. -/
inductive ProviderError where
  /-- Raised as `requests.RequestException`: connection failure or read timeout. -/
  | requestException
  /-- Raised by `response.raise_for_status()` on a non-success status code. -/
  | httpStatus (code : Nat)
  /-- Raised when `response.json()` fails: malformed response body. -/
  | jsonDecode
  /-- a `KeyError`/`TypeError`/`ValueError` while digging fields out of the
  decoded body (missing key or a coordinate that does not parse). -/
  | missingField
  /-- Raised as `IndexError`: indexing `[0]` into an empty result list. -/
  | indexError
deriving DecidableEq, Repr

/-- The outcome of one HTTP exchange, the part of the external world a
provider call observes: either the library raised, or a response arrived
with a status code and a body that may or may not decode (`none` = the
body is not valid JSON). -/
inductive HttpExchange (β : Type) where
  | exn
  | response (status : Nat) (body : Option β)
deriving DecidableEq, Repr

/-- Embeds `raise_for_status`: it raises exactly for client/server error codes. -/
def raiseForStatus (status : Nat) : Bool :=
  400 ≤ status

/-- The decoded JSON body a Mapbox forward-geocode call can yield. -/
inductive MapboxBody where
  /-- a falsy JSON value (empty object, empty list, `null`): `if result:`
  fails and the function returns `None`. -/
  | falsy
  /-- a truthy JSON object; `features?` is `none` when it has no
  `"features"` key, otherwise the list of features, each reduced to the
  coordinates extracted from `properties.coordinates` (`none` entry = that
  extraction raises). -/
  | dict (features? : Option (List (Option Coordinates)))
deriving DecidableEq, Repr

/-- Embeds `query_mapbox` from `geocode/mapbox.py`, as a function of the HTTP
exchange its single `s.get` performs.  Note the source passes no
`timeout=` argument on that `s.get`. -/
def query_mapbox (exchange : HttpExchange MapboxBody) :
    Except ProviderError (Option Coordinates) :=
  match exchange with
  | .exn => .error .requestException
  | .response status body =>
    if raiseForStatus status then .error (.httpStatus status)
    else
      match body with
      | none => .error .jsonDecode
      | some .falsy => .ok none
      | some (.dict none) => .error .missingField
      | some (.dict (some [])) => .error .indexError
      | some (.dict (some (none :: _))) => .error .missingField
      | some (.dict (some (some c :: _))) => .ok (some c)

/-- The decoded JSON body of a Nominatim search: a result list, each entry
reduced to its parsed `lat`/`lon` floats (`none` entry = the fields are
missing or fail to parse as floats). -/
abbrev NominatimBody := List (Option Coordinates)

/-- Embeds `geocode_address` from `geocode/nomination.py`, as a function of the
HTTP exchange its single `s.get` (with `timeout=15`) performs. -/
def geocode_address_nominatim (exchange : HttpExchange NominatimBody) :
    Except ProviderError (Option Coordinates) :=
  match exchange with
  | .exn => .error .requestException
  | .response status body =>
    if raiseForStatus status then .error (.httpStatus status)
    else
      match body with
      | none => .error .jsonDecode
      | some [] => .ok none
      | some (none :: _) => .error .missingField
      | some (some c :: _) => .ok (some c)

/-- The shape of the single HTTP request a provider issues, as built in the
source: URL, query parameters, optional `User-Agent` header, and the
`timeout=` argument passed to `session.get` (`none` = no timeout argument,
so the request can wait forever). -/
structure HttpRequest where
  url : String
  params : List (String × String)
  userAgent? : Option String
  timeoutSeconds? : Option Nat
deriving DecidableEq, Repr

def MAPBOX_URL : String := "https://api.mapbox.com/search/geocode/v6/forward"

def NOMINATIM_URL : String := "https://nominatim.openstreetmap.org/search"

def USER_AGENT : String := "icewatch/1.0 (collective@lockdown.systems)"

/-- The request `query_mapbox` builds: `params = {"q": address,
"access_token": access_token, "limit": 1}` and a bare `s.get(MAPBOX_URL,
params=params)` — no headers, no `timeout=`. -/
def mapboxRequest (access_token address : String) : HttpRequest :=
  { url := MAPBOX_URL
    params := [("q", address), ("access_token", access_token), ("limit", "1")]
    userAgent? := none
    timeoutSeconds? := none }

/-- The request `geocode_address` (Nominatim) builds: `params = {"q":
address, "format": "json", "limit": "1"}`, the descriptive `User-Agent`
header, and `timeout=15`. -/
def nominatimRequest (address : String) : HttpRequest :=
  { url := NOMINATIM_URL
    params := [("q", address), ("format", "json"), ("limit", "1")]
    userAgent? := some USER_AGENT
    timeoutSeconds? := some 15 }

/-- What one provider invocation does, as observed by the orchestrator's
`try` block: return coordinates, return `None` (the service reported no
result), or raise (any `ProviderError`; `main` catches every exception). -/
inductive ProviderOutcome where
  | ok (c : Coordinates)
  | noResult
  | error
deriving DecidableEq, Repr

/-- An observable event of the enrichment loop, in program order. -/
inductive Event where
  /-- a record whose derived address key is empty was skipped. -/
  | skipEmpty
  /-- Taken when `address in cache and cache[address] is not None`: the cached value
  was used, no provider call. -/
  | cacheHit (key : String) (c : Coordinates)
  /-- Records that `geocode_address(address, logger, session)` was invoked. -/
  | providerCall (key : String) (outcome : ProviderOutcome)
  /-- Records that `time.sleep(args.delay)` ran. -/
  | sleep (delay : Nat)
  /-- Records `cache[address] = result` (and `updated = True`). -/
  | put (key : String) (c : Coordinates)
  /-- Records `del cache[address]` removing a stale entry. -/
  | invalidate (key : String)
deriving DecidableEq, Repr

/-- The loop-carried state of `main`: the in-memory cache dict and the
`updated` flag. -/
structure LoopState where
  cache : Cache
  updated : Bool
deriving DecidableEq, Repr

/-- The body of `for i, facility in enumerate(facilities)` in `main`
(`geocode_facilities.py` lines 133-164): one record is processed against
the current state.  `provider i key` is the outcome the geocoder produces
when invoked for the record at index `i` with derived key `key`.  Returns
the new state, the enriched record, and the events in program order. -/
def processFacility (provider : Nat → String → ProviderOutcome) (delay : Nat)
    (i : Nat) (st : LoopState) (f : Facility) :
    LoopState × Facility × List Event :=
  let address := build_address f
  if address = "" then
    (st, { f with latitude := none, longitude := none }, [.skipEmpty])
  else
    match st.cache.lookup address with
    | some (some c) =>
      (st, { f with latitude := some c.lat, longitude := some c.lon },
        [.cacheHit address c])
    | hit =>
      let outcome := provider i address
      let callEvents : List Event :=
        match outcome with
        | .error => [.providerCall address outcome]
        | _ => [.providerCall address outcome, .sleep delay]
      match outcome with
      | .ok c =>
        ({ cache := st.cache.insert address (some c), updated := true },
          { f with latitude := some c.lat, longitude := some c.lon },
          callEvents ++ [.put address c])
      | _ =>
        if hit.isSome then
          ({ st with cache := st.cache.erase address },
            { f with latitude := none, longitude := none },
            callEvents ++ [.invalidate address])
        else
          (st, { f with latitude := none, longitude := none }, callEvents)

/-- The whole per-record loop, folded over the facility list starting at
record index `i`. -/
def runLoop (provider : Nat → String → ProviderOutcome) (delay : Nat) :
    Nat → LoopState → List Facility → LoopState × List Facility × List Event
  | _, st, [] => (st, [], [])
  | i, st, f :: rest =>
    let (st₁, f₁, evs₁) := processFacility provider delay i st f
    let (st₂, rest₂, evs₂) := runLoop provider delay (i + 1) st₁ rest
    (st₂, f₁ :: rest₂, evs₁ ++ evs₂)

/-- The result of one run of the stage after the files are loaded: the
enriched records (written unconditionally by `save_json`), the cache
contents passed to `save_cache` when `updated` was true (`none` = the
cache file was not rewritten), and the event trace. -/
structure RunResult where
  facilities : List Facility
  savedCache : Option Cache
  events : List Event
deriving DecidableEq, Repr

/-- Embeds `main` after loading (`geocode_facilities.py` lines 131-173): run the
loop over the records with the loaded cache, then save the cache only if
`updated`. -/
def runMain (provider : Nat → String → ProviderOutcome) (delay : Nat)
    (cache₀ : Cache) (facilities : List Facility) : RunResult :=
  let (st, fs, evs) := runLoop provider delay 0 { cache := cache₀, updated := false } facilities
  { facilities := fs
    savedCache := if st.updated then some st.cache else none
    events := evs }

/-- The cache file contents after the run, given that the file held
`cache₀` when it was loaded: the rewritten contents if `save_cache` ran,
the untouched original otherwise. -/
def persistedAfter (r : RunResult) (cache₀ : Cache) : Cache :=
  r.savedCache.getD cache₀

/-- The input JSON document: the `facilities` array plus everything else in
the top-level object (`metadata` and any other key), untouched by the stage. -/
structure Document (μ : Type) where
  facilities : List Facility
  metadata : μ
deriving DecidableEq, Repr

/-- The state of a file on disk as the stage finds it. -/
inductive FileState (α : Type) where
  | missing
  | corrupt
  | valid (contents : α)
deriving DecidableEq, Repr

/-- Embeds `load_cache`: empty dict when the file does not exist; `json.load`
errors propagate when the file exists but does not parse. -/
def load_cache : FileState Cache → Except Unit Cache
  | .missing => .ok []
  | .corrupt => .error ()
  | .valid c => .ok c

/-- The fatal failures of the stage, per the error taxonomy. -/
inductive FatalError where
  /-- the input record file is missing or unparseable. -/
  | inputError
  /-- the cache file exists but cannot be parsed. -/
  | persistenceError
  /-- the enriched output or the updated cache cannot be written. -/
  | outputError
deriving DecidableEq, Repr

/-- What a completed run leaves behind: the written output document and
the cache contents written by `save_cache`, if it ran. -/
structure StageOutput (μ : Type) where
  outputDoc : Document μ
  savedCache : Option Cache
deriving DecidableEq, Repr

/-- The whole stage with its file interactions: `load_json` on the input
(missing or unparseable file raises → fatal), `load_cache`, the loop,
`save_json` of the document (unwritable → fatal), `save_cache` if
`updated` (unwritable → fatal).  `outputWritable`/`cacheWritable` model
whether the two `open(path, "w")` calls succeed. -/
def runStage (provider : Nat → String → ProviderOutcome) (delay : Nat)
    (inputFile : FileState (Document μ)) (cacheFile : FileState Cache)
    (outputWritable cacheWritable : Bool) :
    Except FatalError (StageOutput μ) :=
  match inputFile with
  | .missing => .error .inputError
  | .corrupt => .error .inputError
  | .valid doc =>
    match load_cache cacheFile with
    | .error _ => .error .persistenceError
    | .ok cache₀ =>
      let r := runMain provider delay cache₀ doc.facilities
      if outputWritable then
        if r.savedCache.isSome ∧ ¬cacheWritable then .error .outputError
        else .ok { outputDoc := { doc with facilities := r.facilities }
                   savedCache := r.savedCache }
      else .error .outputError

/-! Helper predicates used to state the claims -/

/-- Is this event a cache `put`? -/
def Event.isPut : Event → Bool
  | .put _ _ => true
  | _ => false

/-- Is this event a cache invalidation? -/
def Event.isInvalidate : Event → Bool
  | .invalidate _ => true
  | _ => false

/-- Is this event a provider invocation for key `K`? -/
def Event.isCallFor (K : String) : Event → Bool
  | .providerCall k _ => k = K
  | _ => false

/-- Is this event a sleep? -/
def Event.isSleep : Event → Bool
  | .sleep _ => true
  | _ => false

/-- The trace does not begin with a sleep. -/
def notSleepHead : List Event → Bool
  | .sleep _ :: _ => false
  | _ => true

/-- The inter-request sleep discipline the loop actually enforces: a
`sleep d` appears exactly immediately after a provider call that returned
normally (successfully or with no result), and never after a provider call
that raised, a cache hit, or an empty-address skip. -/
def sleepDiscipline (d : Nat) : List Event → Bool
  | [] => true
  | .providerCall _ .error :: .sleep _ :: _ => false
  | .providerCall _ .error :: rest => sleepDiscipline d rest
  | .providerCall _ _ :: .sleep d' :: rest => (d' == d) && sleepDiscipline d rest
  | .providerCall _ _ :: _ => false
  | .sleep _ :: _ => false
  | _ :: rest => sleepDiscipline d rest

/-- Well-formed lookup: the coordinates under key `k`, when `k` is present
and maps to a non-null value. -/
def Cache.lookupWF (c : Cache) (k : String) : Option Coordinates :=
  match c.lookup k with
  | some (some v) => some v
  | _ => none

/-- The keys of the association list are distinct — true of every cache a
Python `dict` (hence every parsed JSON object) can hold. -/
def Cache.KeysNodup (c : Cache) : Prop :=
  (c.map Prod.fst).Nodup

/-! Concrete fixtures used for witnesses and counterexamples -/

/-- A provider stub that always fails (every call raises). -/
def alwaysFail : Nat → String → ProviderOutcome := fun _ _ => .error

/-- A provider stub that always succeeds with fixed coordinates. -/
def alwaysOk : Nat → String → ProviderOutcome := fun _ _ => .ok ⟨7, 8⟩

/-- A sample facility record. -/
def facA : Facility :=
  { address? := some "1 Main St", city? := some "Springfield", state? := none,
    zip? := some "12345", other := [("Name", "Alpha")],
    latitude := none, longitude := none }

/-- The derived address key of `facA`. -/
def keyA : String := "1 Main St, Springfield, 12345"

/-! Cache lemmas -/

theorem Cache.lookup_eq_none (c : Cache) (k : String)
    (h : k ∉ c.map Prod.fst) : c.lookup k = none := by
  induction c with
  | nil => rfl
  | cons hd tl ih =>
    simp only [List.map_cons, List.mem_cons] at h
    push_neg at h
    have hne : hd.1 ≠ k := fun he => h.1 he.symm
    simp only [Cache.lookup, if_neg hne]
    exact ih h.2

theorem Cache.lookup_insert_self (c : Cache) (k : String) (v : CacheValue) :
    (c.insert k v).lookup k = some v := by
  induction c with
  | nil => simp [Cache.insert, Cache.lookup]
  | cons hd tl ih =>
    by_cases h : hd.1 = k
    · simp [Cache.insert, Cache.lookup, h]
    · simp [Cache.insert, Cache.lookup, h, ih]

theorem Cache.lookup_insert_ne (c : Cache) (k k' : String) (v : CacheValue)
    (h : k' ≠ k) : (c.insert k v).lookup k' = c.lookup k' := by
  induction c with
  | nil => simp [Cache.insert, Cache.lookup, Ne.symm h]
  | cons hd tl ih =>
    by_cases hh : hd.1 = k
    · subst hh
      simp [Cache.insert, Cache.lookup, Ne.symm h]
    · simp only [Cache.insert, if_neg hh, Cache.lookup]
      by_cases hk : hd.1 = k' <;> simp [hk, ih]

theorem Cache.lookup_erase_ne (c : Cache) (k k' : String) (h : k' ≠ k) :
    (c.erase k).lookup k' = c.lookup k' := by
  induction c with
  | nil => simp [Cache.erase]
  | cons hd tl ih =>
    by_cases hh : hd.1 = k
    · subst hh
      simp [Cache.erase, Cache.lookup, Ne.symm h]
    · simp only [Cache.erase, if_neg hh, Cache.lookup]
      by_cases hk : hd.1 = k' <;> simp [hk, ih]

theorem Cache.lookup_erase_self (c : Cache) (k : String) (h : c.KeysNodup) :
    (c.erase k).lookup k = none := by
  induction c with
  | nil => rfl
  | cons hd tl ih =>
    rcases List.nodup_cons.mp h with ⟨h₁, h₂⟩
    by_cases hh : hd.1 = k
    · simp only [Cache.erase, if_pos hh]
      exact Cache.lookup_eq_none tl k (hh ▸ h₁)
    · simp only [Cache.erase, if_neg hh, Cache.lookup, if_neg hh]
      exact ih h₂

theorem Cache.mem_keys_insert (c : Cache) (k a : String) (v : CacheValue)
    (h : a ∈ (c.insert k v).map Prod.fst) :
    a ∈ c.map Prod.fst ∨ a = k := by
  induction c with
  | nil => simpa [Cache.insert] using h
  | cons hd tl ih =>
    by_cases hh : hd.1 = k
    · simp only [Cache.insert, if_pos hh, List.map_cons, List.mem_cons] at h
      simp only [List.map_cons, List.mem_cons]
      exact Or.inl h
    · simp only [Cache.insert, if_neg hh, List.map_cons, List.mem_cons] at h ⊢
      rcases h with h | h
      · exact Or.inl (Or.inl h)
      · exact (ih h).imp_left Or.inr

theorem Cache.mem_keys_erase (c : Cache) (k a : String)
    (h : a ∈ (c.erase k).map Prod.fst) : a ∈ c.map Prod.fst := by
  induction c with
  | nil => exact absurd h (by simp [Cache.erase])
  | cons hd tl ih =>
    by_cases hh : hd.1 = k
    · simp only [Cache.erase, if_pos hh] at h
      simp [h]
    · simp only [Cache.erase, if_neg hh, List.map_cons, List.mem_cons] at h ⊢
      exact h.imp_right ih

theorem Cache.keysNodup_insert (c : Cache) (k : String) (v : CacheValue)
    (h : c.KeysNodup) : (c.insert k v).KeysNodup := by
  induction c with
  | nil => simp [Cache.insert, Cache.KeysNodup]
  | cons hd tl ih =>
    rcases List.nodup_cons.mp h with ⟨h₁, h₂⟩
    by_cases hh : hd.1 = k
    · simp only [Cache.KeysNodup, Cache.insert, if_pos hh, List.map_cons]
      exact List.nodup_cons.mpr ⟨h₁, h₂⟩
    · simp only [Cache.KeysNodup, Cache.insert, if_neg hh, List.map_cons]
      refine List.nodup_cons.mpr ⟨fun hmem => ?_, ih h₂⟩
      rcases Cache.mem_keys_insert tl k hd.1 v hmem with h' | h'
      · exact h₁ h'
      · exact hh h'

theorem Cache.keysNodup_erase (c : Cache) (k : String)
    (h : c.KeysNodup) : (c.erase k).KeysNodup := by
  induction c with
  | nil => simp [Cache.erase, Cache.KeysNodup]
  | cons hd tl ih =>
    rcases List.nodup_cons.mp h with ⟨h₁, h₂⟩
    by_cases hh : hd.1 = k
    · simpa [Cache.KeysNodup, Cache.erase, if_pos hh] using h₂
    · simp only [Cache.KeysNodup, Cache.erase, if_neg hh, List.map_cons]
      exact List.nodup_cons.mpr
        ⟨fun hmem => h₁ (Cache.mem_keys_erase tl k hd.1 hmem), ih h₂⟩

theorem Cache.mem_insert (c : Cache) (k : String) (v : CacheValue)
    (kv : String × CacheValue) (h : kv ∈ c.insert k v) :
    kv ∈ c ∨ kv = (k, v) := by
  induction c with
  | nil =>
    simp only [Cache.insert, List.mem_singleton] at h
    exact Or.inr h
  | cons hd tl ih =>
    by_cases hh : hd.1 = k
    · simp only [Cache.insert, if_pos hh, List.mem_cons] at h
      rcases h with h | h
      · exact Or.inr (by rw [h, hh])
      · exact Or.inl (List.mem_cons.mpr (Or.inr h))
    · simp only [Cache.insert, if_neg hh, List.mem_cons] at h
      rcases h with h | h
      · exact Or.inl (List.mem_cons.mpr (Or.inl h))
      · exact (ih h).imp_left (fun h' => List.mem_cons.mpr (Or.inr h'))

theorem Cache.mem_erase (c : Cache) (k : String) (kv : String × CacheValue)
    (h : kv ∈ c.erase k) : kv ∈ c := by
  induction c with
  | nil => exact absurd h (by simp [Cache.erase])
  | cons hd tl ih =>
    by_cases hh : hd.1 = k
    · simp only [Cache.erase, if_pos hh] at h
      exact List.mem_cons.mpr (Or.inr h)
    · simp only [Cache.erase, if_neg hh, List.mem_cons] at h
      exact List.mem_cons.mpr (h.imp_right ih)


/-! Step characterization:

`processFacility_cases` enumerates the seven control paths of the loop
body; every claim-level proof below reduces to case analysis over it. -/

theorem processFacility_cases (p : Nat → String → ProviderOutcome) (d i : Nat)
    (st : LoopState) (f : Facility) :
    (build_address f = "" ∧
      processFacility p d i st f =
        (st, { f with latitude := none, longitude := none }, [.skipEmpty])) ∨
    (∃ c, build_address f ≠ "" ∧
      st.cache.lookup (build_address f) = some (some c) ∧
      processFacility p d i st f =
        (st, { f with latitude := some c.lat, longitude := some c.lon },
          [.cacheHit (build_address f) c])) ∨
    (∃ c, build_address f ≠ "" ∧
      (st.cache.lookup (build_address f) = none ∨
        st.cache.lookup (build_address f) = some none) ∧
      p i (build_address f) = .ok c ∧
      processFacility p d i st f =
        ({ cache := st.cache.insert (build_address f) (some c), updated := true },
          { f with latitude := some c.lat, longitude := some c.lon },
          [.providerCall (build_address f) (.ok c), .sleep d,
            .put (build_address f) c])) ∨
    (build_address f ≠ "" ∧
      st.cache.lookup (build_address f) = some none ∧
      p i (build_address f) = .noResult ∧
      processFacility p d i st f =
        ({ st with cache := st.cache.erase (build_address f) },
          { f with latitude := none, longitude := none },
          [.providerCall (build_address f) .noResult, .sleep d,
            .invalidate (build_address f)])) ∨
    (build_address f ≠ "" ∧
      st.cache.lookup (build_address f) = some none ∧
      p i (build_address f) = .error ∧
      processFacility p d i st f =
        ({ st with cache := st.cache.erase (build_address f) },
          { f with latitude := none, longitude := none },
          [.providerCall (build_address f) .error,
            .invalidate (build_address f)])) ∨
    (build_address f ≠ "" ∧
      st.cache.lookup (build_address f) = none ∧
      p i (build_address f) = .noResult ∧
      processFacility p d i st f =
        (st, { f with latitude := none, longitude := none },
          [.providerCall (build_address f) .noResult, .sleep d])) ∨
    (build_address f ≠ "" ∧
      st.cache.lookup (build_address f) = none ∧
      p i (build_address f) = .error ∧
      processFacility p d i st f =
        (st, { f with latitude := none, longitude := none },
          [.providerCall (build_address f) .error])) := by
  by_cases ha : build_address f = ""
  · exact Or.inl ⟨ha, by simp [processFacility, ha]⟩
  · rcases hL : st.cache.lookup (build_address f) with _ | ⟨_ | c⟩
    · rcases ho : p i (build_address f) with c | _ | _
      · exact Or.inr (Or.inr (Or.inl ⟨c, ha, Or.inl rfl, rfl,
          by simp [processFacility, ha, hL, ho]⟩))
      · exact Or.inr (Or.inr (Or.inr (Or.inr (Or.inr (Or.inl ⟨ha, rfl, rfl,
          by simp [processFacility, ha, hL, ho]⟩)))))
      · exact Or.inr (Or.inr (Or.inr (Or.inr (Or.inr (Or.inr ⟨ha, rfl, rfl,
          by simp [processFacility, ha, hL, ho]⟩)))))
    · rcases ho : p i (build_address f) with c | _ | _
      · exact Or.inr (Or.inr (Or.inl ⟨c, ha, Or.inr rfl, rfl,
          by simp [processFacility, ha, hL, ho]⟩))
      · exact Or.inr (Or.inr (Or.inr (Or.inl ⟨ha, rfl, rfl,
          by simp [processFacility, ha, hL, ho]⟩)))
      · exact Or.inr (Or.inr (Or.inr (Or.inr (Or.inl ⟨ha, rfl, rfl,
          by simp [processFacility, ha, hL, ho]⟩))))
    · exact Or.inr (Or.inl ⟨c, ha, rfl,
        by simp [processFacility, ha, hL]⟩)


/-! Loop-level lemmas -/

theorem runLoop_length (p : Nat → String → ProviderOutcome) (d : Nat) :
    ∀ (fs : List Facility) (i : Nat) (st : LoopState),
    (runLoop p d i st fs).2.1.length = fs.length
  | [], _, _ => rfl
  | f :: rest, i, st => by
    rcases hP : processFacility p d i st f with ⟨st₁, f₁, evs₁⟩
    rcases hR : runLoop p d (i + 1) st₁ rest with ⟨st₂, fs₂, evs₂⟩
    have ih := runLoop_length p d rest (i + 1) st₁
    rw [hR] at ih
    simp only [runLoop, hP, hR]
    simpa using ih

theorem processFacility_updated (p : Nat → String → ProviderOutcome)
    (d i : Nat) (st : LoopState) (f : Facility) :
    (processFacility p d i st f).1.updated =
      (st.updated || (processFacility p d i st f).2.2.any Event.isPut) := by
  rcases processFacility_cases p d i st f with
    ⟨_, h⟩ | ⟨c, _, _, h⟩ | ⟨c, _, _, _, h⟩ | ⟨_, _, _, h⟩ | ⟨_, _, _, h⟩ |
    ⟨_, _, _, h⟩ | ⟨_, _, _, h⟩ <;>
  simp [h, Event.isPut]

theorem runLoop_updated (p : Nat → String → ProviderOutcome) (d : Nat) :
    ∀ (fs : List Facility) (i : Nat) (st : LoopState),
    (runLoop p d i st fs).1.updated =
      (st.updated || (runLoop p d i st fs).2.2.any Event.isPut)
  | [], _, _ => by simp [runLoop]
  | f :: rest, i, st => by
    have hstep := processFacility_updated p d i st f
    rcases hP : processFacility p d i st f with ⟨st₁, f₁, evs₁⟩
    rcases hR : runLoop p d (i + 1) st₁ rest with ⟨st₂, fs₂, evs₂⟩
    have ih := runLoop_updated p d rest (i + 1) st₁
    rw [hR] at ih
    rw [hP] at hstep
    simp only [runLoop, hP, hR]
    simp only at hstep ih ⊢
    rw [ih, hstep, List.any_append, Bool.or_assoc]


theorem sleepDiscipline_skip_cons (d : Nat) (rest : List Event) :
    sleepDiscipline d (.skipEmpty :: rest) = sleepDiscipline d rest := rfl

theorem sleepDiscipline_hit_cons (d : Nat) (k : String) (c : Coordinates)
    (rest : List Event) :
    sleepDiscipline d (.cacheHit k c :: rest) = sleepDiscipline d rest := rfl

theorem sleepDiscipline_put_cons (d : Nat) (k : String) (c : Coordinates)
    (rest : List Event) :
    sleepDiscipline d (.put k c :: rest) = sleepDiscipline d rest := rfl

theorem sleepDiscipline_invalidate_cons (d : Nat) (k : String)
    (rest : List Event) :
    sleepDiscipline d (.invalidate k :: rest) = sleepDiscipline d rest := rfl

theorem sleepDiscipline_ok_sleep_cons (d : Nat) (k : String) (c : Coordinates)
    (rest : List Event) :
    sleepDiscipline d (.providerCall k (.ok c) :: .sleep d :: rest) =
      sleepDiscipline d rest := by
  simp [sleepDiscipline]

theorem sleepDiscipline_noResult_sleep_cons (d : Nat) (k : String)
    (rest : List Event) :
    sleepDiscipline d (.providerCall k .noResult :: .sleep d :: rest) =
      sleepDiscipline d rest := by
  simp [sleepDiscipline]

theorem sleepDiscipline_error_cons (d : Nat) (k : String) (rest : List Event)
    (h : notSleepHead rest = true) :
    sleepDiscipline d (.providerCall k .error :: rest) =
      sleepDiscipline d rest := by
  cases rest with
  | nil => rfl
  | cons e rest' =>
    cases e with
    | sleep d' => exact absurd h (by simp [notSleepHead])
    | skipEmpty => rfl
    | cacheHit _ _ => rfl
    | providerCall _ _ => rfl
    | put _ _ => rfl
    | invalidate _ => rfl

theorem runLoop_notSleepHead (p : Nat → String → ProviderOutcome) (d : Nat)
    (fs : List Facility) (i : Nat) (st : LoopState) :
    notSleepHead (runLoop p d i st fs).2.2 = true := by
  cases fs with
  | nil => rfl
  | cons f rest =>
    rcases hP : processFacility p d i st f with ⟨st₁, f₁, evs₁⟩
    rcases hR : runLoop p d (i + 1) st₁ rest with ⟨st₂, fs₂, evs₂⟩
    simp only [runLoop, hP, hR]
    rcases processFacility_cases p d i st f with
      ⟨_, h⟩ | ⟨c, _, _, h⟩ | ⟨c, _, _, _, h⟩ | ⟨_, _, _, h⟩ | ⟨_, _, _, h⟩ |
      ⟨_, _, _, h⟩ | ⟨_, _, _, h⟩ <;>
    · rw [hP] at h
      simp only [Prod.mk.injEq] at h
      obtain ⟨h₁, h₂, hevs⟩ := h
      subst hevs
      rfl

theorem runLoop_sleepDiscipline (p : Nat → String → ProviderOutcome)
    (d : Nat) : ∀ (fs : List Facility) (i : Nat) (st : LoopState),
    sleepDiscipline d (runLoop p d i st fs).2.2 = true
  | [], _, _ => rfl
  | f :: rest, i, st => by
    rcases hP : processFacility p d i st f with ⟨st₁, f₁, evs₁⟩
    rcases hR : runLoop p d (i + 1) st₁ rest with ⟨st₂, fs₂, evs₂⟩
    have ih := runLoop_sleepDiscipline p d rest (i + 1) st₁
    have ihh := runLoop_notSleepHead p d rest (i + 1) st₁
    rw [hR] at ih ihh
    simp only at ih ihh
    simp only [runLoop, hP, hR]
    rcases processFacility_cases p d i st f with
      ⟨_, h⟩ | ⟨c, _, _, h⟩ | ⟨c, _, _, _, h⟩ | ⟨_, _, _, h⟩ | ⟨_, _, _, h⟩ |
      ⟨_, _, _, h⟩ | ⟨_, _, _, h⟩ <;>
    · rw [hP] at h
      simp only [Prod.mk.injEq] at h
      obtain ⟨h₁, h₂, hevs⟩ := h
      subst hevs
      simp only [List.cons_append, List.nil_append,
        sleepDiscipline_skip_cons, sleepDiscipline_hit_cons,
        sleepDiscipline_put_cons, sleepDiscipline_invalidate_cons,
        sleepDiscipline_ok_sleep_cons, sleepDiscipline_noResult_sleep_cons]
      first
      | exact ih
      | rw [sleepDiscipline_error_cons d _ _ ihh]; exact ih


theorem processFacility_wf_key (p : Nat → String → ProviderOutcome)
    (d i : Nat) (st : LoopState) (f : Facility) (K : String)
    (c : Coordinates) (hne : K ≠ "")
    (hK : st.cache.lookup K = some (some c)) :
    (processFacility p d i st f).1.cache.lookup K = some (some c) ∧
    (processFacility p d i st f).2.2.any (Event.isCallFor K) = false ∧
    (build_address f = K →
      (processFacility p d i st f).2.1 =
        { f with latitude := some c.lat, longitude := some c.lon }) := by
  rcases processFacility_cases p d i st f with
    ⟨ha, h⟩ | ⟨c', ha, hL, h⟩ | ⟨c', ha, hL, ho, h⟩ | ⟨ha, hL, ho, h⟩ |
    ⟨ha, hL, ho, h⟩ | ⟨ha, hL, ho, h⟩ | ⟨ha, hL, ho, h⟩
  · refine ⟨by simp [h, hK], by simp [h, Event.isCallFor], fun hf => ?_⟩
    exact absurd (hf ▸ ha) hne
  · by_cases hfK : build_address f = K
    · rw [hfK] at hL
      rw [hK] at hL
      obtain rfl : c = c' := by simpa using hL
      exact ⟨by simp [h, hK], by simp [h, Event.isCallFor],
        fun _ => by simp [h]⟩
    · exact ⟨by simp [h, hK], by simp [h, Event.isCallFor],
        fun hf => absurd hf hfK⟩
  · have hAK : build_address f ≠ K := by
      intro hf
      rw [hf, hK] at hL
      rcases hL with hL | hL <;> simp at hL
    refine ⟨?_, ?_, fun hf => absurd hf hAK⟩
    · simp only [h]
      exact (Cache.lookup_insert_ne st.cache (build_address f) K (some c')
        (Ne.symm hAK)).trans hK
    · simp [h, Event.isCallFor, hAK]
  · have hAK : build_address f ≠ K := by
      intro hf
      rw [hf, hK] at hL
      simp at hL
    refine ⟨?_, ?_, fun hf => absurd hf hAK⟩
    · simp only [h]
      exact (Cache.lookup_erase_ne st.cache (build_address f) K
        (Ne.symm hAK)).trans hK
    · simp [h, Event.isCallFor, hAK]
  · have hAK : build_address f ≠ K := by
      intro hf
      rw [hf, hK] at hL
      simp at hL
    refine ⟨?_, ?_, fun hf => absurd hf hAK⟩
    · simp only [h]
      exact (Cache.lookup_erase_ne st.cache (build_address f) K
        (Ne.symm hAK)).trans hK
    · simp [h, Event.isCallFor, hAK]
  · have hAK : build_address f ≠ K := by
      intro hf
      rw [hf, hK] at hL
      simp at hL
    exact ⟨by simp [h, hK], by simp [h, Event.isCallFor, hAK],
      fun hf => absurd hf hAK⟩
  · have hAK : build_address f ≠ K := by
      intro hf
      rw [hf, hK] at hL
      simp at hL
    exact ⟨by simp [h, hK], by simp [h, Event.isCallFor, hAK],
      fun hf => absurd hf hAK⟩

theorem runLoop_wf_key (p : Nat → String → ProviderOutcome) (d : Nat)
    (K : String) (c : Coordinates) (hne : K ≠ "") :
    ∀ (fs : List Facility) (i : Nat) (st : LoopState),
    st.cache.lookup K = some (some c) →
    (runLoop p d i st fs).1.cache.lookup K = some (some c) ∧
    (runLoop p d i st fs).2.2.any (Event.isCallFor K) = false ∧
    (∀ (j : Nat) (f : Facility), fs[j]? = some f → build_address f = K →
      ∃ fo : Facility, (runLoop p d i st fs).2.1[j]? = some fo ∧
        fo.latitude = some c.lat ∧ fo.longitude = some c.lon)
  | [], i, st, hK => by
    refine ⟨hK, rfl, fun j f hj _ => ?_⟩
    simp at hj
  | f :: rest, i, st, hK => by
    have hstep := processFacility_wf_key p d i st f K c hne hK
    rcases hP : processFacility p d i st f with ⟨st₁, f₁, evs₁⟩
    rw [hP] at hstep
    obtain ⟨hc₁, he₁, hr₁⟩ := hstep
    have ih := runLoop_wf_key p d K c hne rest (i + 1) st₁ hc₁
    rcases hR : runLoop p d (i + 1) st₁ rest with ⟨st₂, fs₂, evs₂⟩
    rw [hR] at ih
    obtain ⟨hc₂, he₂, hr₂⟩ := ih
    simp only [runLoop, hP, hR]
    refine ⟨hc₂, ?_, ?_⟩
    · simp only [List.any_append]
      simp only at he₁ he₂
      rw [he₁, he₂]
      rfl
    · intro j g hj hg
      cases j with
      | zero =>
        simp only [List.getElem?_cons_zero, Option.some.injEq] at hj
        subst hj
        have hf₁ : f₁ =
            { f with latitude := some c.lat, longitude := some c.lon } := by
          simpa using hr₁ hg
        refine ⟨f₁, by simp, ?_, ?_⟩ <;> rw [hf₁]
      | succ n =>
        simp only [List.getElem?_cons_succ] at hj ⊢
        exact hr₂ n g hj hg


theorem processFacility_values_some (p : Nat → String → ProviderOutcome)
    (d i : Nat) (st : LoopState) (f : Facility)
    (h : ∀ kv ∈ st.cache, Option.isSome kv.2 = true) :
    ∀ kv ∈ (processFacility p d i st f).1.cache,
      Option.isSome kv.2 = true := by
  rcases processFacility_cases p d i st f with
    ⟨_, hc⟩ | ⟨c, _, _, hc⟩ | ⟨c, _, _, _, hc⟩ | ⟨_, _, _, hc⟩ |
    ⟨_, _, _, hc⟩ | ⟨_, _, _, hc⟩ | ⟨_, _, _, hc⟩ <;>
  rw [hc] <;> intro kv hkv
  · exact h kv hkv
  · exact h kv hkv
  · rcases Cache.mem_insert st.cache (build_address f) (some c) kv hkv with
      hm | hm
    · exact h kv hm
    · rw [hm]
      rfl
  · exact h kv (Cache.mem_erase st.cache (build_address f) kv hkv)
  · exact h kv (Cache.mem_erase st.cache (build_address f) kv hkv)
  · exact h kv hkv
  · exact h kv hkv

theorem runLoop_values_some (p : Nat → String → ProviderOutcome) (d : Nat) :
    ∀ (fs : List Facility) (i : Nat) (st : LoopState),
    (∀ kv ∈ st.cache, Option.isSome kv.2 = true) →
    ∀ kv ∈ (runLoop p d i st fs).1.cache, Option.isSome kv.2 = true
  | [], _, _, h => h
  | f :: rest, i, st, h => by
    have hstep := processFacility_values_some p d i st f h
    rcases hP : processFacility p d i st f with ⟨st₁, f₁, evs₁⟩
    rw [hP] at hstep
    have ih := runLoop_values_some p d rest (i + 1) st₁ hstep
    rcases hR : runLoop p d (i + 1) st₁ rest with ⟨st₂, fs₂, evs₂⟩
    rw [hR] at ih
    simp only [runLoop, hP, hR]
    exact ih

theorem processFacility_alwaysFail (d i : Nat) (st : LoopState)
    (f : Facility) (hn : st.cache.KeysNodup) :
    (processFacility alwaysFail d i st f).1.updated = st.updated ∧
    (processFacility alwaysFail d i st f).1.cache.KeysNodup ∧
    (∀ k, (processFacility alwaysFail d i st f).1.cache.lookupWF k =
      st.cache.lookupWF k) ∧
    (processFacility alwaysFail d i st f).2.1 =
      { f with
        latitude := if build_address f = "" then none
          else (st.cache.lookupWF (build_address f)).map Coordinates.lat
        longitude := if build_address f = "" then none
          else (st.cache.lookupWF (build_address f)).map Coordinates.lon } := by
  rcases processFacility_cases alwaysFail d i st f with
    ⟨ha, hc⟩ | ⟨c, ha, hL, hc⟩ | ⟨c, ha, hL, ho, hc⟩ | ⟨ha, hL, ho, hc⟩ |
    ⟨ha, hL, ho, hc⟩ | ⟨ha, hL, ho, hc⟩ | ⟨ha, hL, ho, hc⟩
  · exact ⟨by simp [hc], by simpa [hc] using hn, fun k => by simp [hc],
      by simp [hc, ha]⟩
  · exact ⟨by simp [hc], by simpa [hc] using hn, fun k => by simp [hc],
      by simp [hc, ha, Cache.lookupWF, hL]⟩
  · exact absurd ho (by simp [alwaysFail])
  · exact absurd ho (by simp [alwaysFail])
  · refine ⟨by simp [hc], ?_, fun k => ?_, ?_⟩
    · simpa [hc] using Cache.keysNodup_erase st.cache (build_address f) hn
    · by_cases hk : k = build_address f
      · subst hk
        simp [hc, Cache.lookupWF,
          Cache.lookup_erase_self st.cache (build_address f) hn, hL]
      · simp [hc, Cache.lookupWF,
          Cache.lookup_erase_ne st.cache (build_address f) k hk]
    · simp [hc, ha, Cache.lookupWF, hL]
  · exact absurd ho (by simp [alwaysFail])
  · exact ⟨by simp [hc], by simpa [hc] using hn, fun k => by simp [hc],
      by simp [hc, ha, Cache.lookupWF, hL]⟩

theorem runLoop_alwaysFail (d : Nat) :
    ∀ (fs : List Facility) (i : Nat) (st : LoopState),
    st.cache.KeysNodup →
    (runLoop alwaysFail d i st fs).1.updated = st.updated ∧
    (runLoop alwaysFail d i st fs).1.cache.KeysNodup ∧
    (∀ k, (runLoop alwaysFail d i st fs).1.cache.lookupWF k =
      st.cache.lookupWF k) ∧
    (∀ (j : Nat) (f : Facility), fs[j]? = some f →
      ∃ fo : Facility, (runLoop alwaysFail d i st fs).2.1[j]? = some fo ∧
        fo = { f with
          latitude := if build_address f = "" then none
            else (st.cache.lookupWF (build_address f)).map Coordinates.lat
          longitude := if build_address f = "" then none
            else (st.cache.lookupWF (build_address f)).map Coordinates.lon })
  | [], i, st, hn => by
    refine ⟨rfl, hn, fun _ => rfl, fun j f hj => ?_⟩
    simp at hj
  | f :: rest, i, st, hn => by
    have hstep := processFacility_alwaysFail d i st f hn
    rcases hP : processFacility alwaysFail d i st f with ⟨st₁, f₁, evs₁⟩
    rw [hP] at hstep
    obtain ⟨hu₁, hn₁, hw₁, hf₁⟩ := hstep
    have ih := runLoop_alwaysFail d rest (i + 1) st₁ hn₁
    rcases hR : runLoop alwaysFail d (i + 1) st₁ rest with ⟨st₂, fs₂, evs₂⟩
    rw [hR] at ih
    obtain ⟨hu₂, hn₂, hw₂, hr₂⟩ := ih
    simp only [runLoop, hP, hR]
    refine ⟨?_, hn₂, fun k => ?_, ?_⟩
    · simp only at hu₂ hu₁ ⊢
      rw [hu₂, hu₁]
    · simp only at hw₂ hw₁ ⊢
      rw [hw₂ k, hw₁ k]
    · intro j g hj
      cases j with
      | zero =>
        simp only [List.getElem?_cons_zero, Option.some.injEq] at hj
        subst hj
        exact ⟨f₁, by simp, by simpa using hf₁⟩
      | succ n =>
        simp only [List.getElem?_cons_succ] at hj ⊢
        obtain ⟨fo, hfo, hfoeq⟩ := hr₂ n g hj
        refine ⟨fo, hfo, ?_⟩
        rw [hfoeq]
        simp only [hw₁ (build_address g)]


theorem processFacility_frame (p : Nat → String → ProviderOutcome)
    (d i : Nat) (st : LoopState) (f : Facility) :
    ∃ la lo, (processFacility p d i st f).2.1 =
      { f with latitude := la, longitude := lo } := by
  rcases processFacility_cases p d i st f with
    ⟨_, hc⟩ | ⟨c, _, _, hc⟩ | ⟨c, _, _, _, hc⟩ | ⟨_, _, _, hc⟩ |
    ⟨_, _, _, hc⟩ | ⟨_, _, _, hc⟩ | ⟨_, _, _, hc⟩
  · exact ⟨none, none, by rw [hc]⟩
  · exact ⟨some c.lat, some c.lon, by rw [hc]⟩
  · exact ⟨some c.lat, some c.lon, by rw [hc]⟩
  · exact ⟨none, none, by rw [hc]⟩
  · exact ⟨none, none, by rw [hc]⟩
  · exact ⟨none, none, by rw [hc]⟩
  · exact ⟨none, none, by rw [hc]⟩

theorem runLoop_frame (p : Nat → String → ProviderOutcome) (d : Nat) :
    ∀ (fs : List Facility) (i : Nat) (st : LoopState)
    (j : Nat) (f : Facility), fs[j]? = some f →
    ∃ la lo, (runLoop p d i st fs).2.1[j]? =
      some { f with latitude := la, longitude := lo }
  | [], _, _, j, f, hj => by simp at hj
  | f₀ :: rest, i, st, j, f, hj => by
    rcases hP : processFacility p d i st f₀ with ⟨st₁, f₁, evs₁⟩
    rcases hR : runLoop p d (i + 1) st₁ rest with ⟨st₂, fs₂, evs₂⟩
    simp only [runLoop, hP, hR]
    cases j with
    | zero =>
      simp only [List.getElem?_cons_zero, Option.some.injEq] at hj
      subst hj
      obtain ⟨la, lo, hf⟩ := processFacility_frame p d i st f₀
      rw [hP] at hf
      simp only at hf
      subst hf
      exact ⟨la, lo, by simp⟩
    | succ n =>
      simp only [List.getElem?_cons_succ] at hj ⊢
      have ih := runLoop_frame p d rest (i + 1) st₁ n f hj
      rw [hR] at ih
      exact ih


/-! Run-level lemmas -/

theorem runMain_length (p : Nat → String → ProviderOutcome) (d : Nat)
    (c₀ : Cache) (fs : List Facility) :
    (runMain p d c₀ fs).facilities.length = fs.length := by
  have hl := runLoop_length p d fs 0 { cache := c₀, updated := false }
  rcases hR : runLoop p d 0 { cache := c₀, updated := false } fs with
    ⟨st, fs', evs⟩
  rw [hR] at hl
  simp only [runMain, hR]
  exact hl

theorem runMain_frame (p : Nat → String → ProviderOutcome) (d : Nat)
    (c₀ : Cache) (fs : List Facility) (j : Nat) (f : Facility)
    (hj : fs[j]? = some f) :
    ∃ la lo, (runMain p d c₀ fs).facilities[j]? =
      some { f with latitude := la, longitude := lo } := by
  have hf := runLoop_frame p d fs 0 { cache := c₀, updated := false } j f hj
  rcases hR : runLoop p d 0 { cache := c₀, updated := false } fs with
    ⟨st, fs', evs⟩
  rw [hR] at hf
  simp only [runMain, hR]
  exact hf


/-! The claims -/

/-- C1, counterexample: a run whose only cache mutation is an invalidation
(the loaded cache maps `keyA` to null, the provider fails, so the key is
deleted) does not rewrite the cache file: `savedCache = none` although an
invalidate event occurred, contradicting the claim that the cache is
persisted if and only if a put or an invalidate occurred. -/
theorem c1_counterexample :
    (runMain alwaysFail 2 [(keyA, none)] [facA]).events.any
        Event.isInvalidate = true ∧
    (runMain alwaysFail 2 [(keyA, none)] [facA]).savedCache = none := by
  exact ⟨rfl, rfl⟩

/-- C1 (amended): the enriched records are always produced in full, and the
cache file is rewritten if and only if at least one `put` occurred during
the run; a run whose only mutation is an invalidation leaves the cache
file untouched (`updated` is set only on line 155 of
`geocode_facilities.py`, never by the `del`). -/
theorem c1_cache_rewritten_iff_put (p : Nat → String → ProviderOutcome)
    (d : Nat) (c₀ : Cache) (fs : List Facility) :
    (runMain p d c₀ fs).savedCache.isSome =
      (runMain p d c₀ fs).events.any Event.isPut ∧
    (runMain p d c₀ fs).facilities.length = fs.length := by
  refine ⟨?_, runMain_length p d c₀ fs⟩
  have hu := runLoop_updated p d fs 0 { cache := c₀, updated := false }
  rcases hR : runLoop p d 0 { cache := c₀, updated := false } fs with
    ⟨st, fs', evs⟩
  rw [hR] at hu
  simp only at hu
  simp only [runMain, hR]
  rw [show (if st.updated then some st.cache else none).isSome =
    st.updated by cases st.updated <;> rfl]
  rw [hu]
  simp

/-- C2, counterexample: for a record whose provider call raises, no delay
is waited at all (the `time.sleep` sits inside the `try` after the call,
so an exception skips it); the trace of this failing run holds the
provider call and no sleep event, contradicting the claim that the delay
is waited whether the call succeeds or fails. -/
theorem c2_counterexample :
    (runMain alwaysFail 2 [] [facA]).events =
      [.providerCall keyA .error] ∧
    (runMain alwaysFail 2 [] [facA]).events.any Event.isSleep = false := by
  exact ⟨rfl, rfl⟩

/-- C2 (amended): the configured delay is waited exactly after the
provider calls that return normally (with coordinates or with no result);
a call that raises skips the delay, and no delay ever follows a cache hit
or an empty-address skip. -/
theorem c2_sleep_discipline (p : Nat → String → ProviderOutcome)
    (d : Nat) (c₀ : Cache) (fs : List Facility) :
    sleepDiscipline d (runMain p d c₀ fs).events = true := by
  have h := runLoop_sleepDiscipline p d fs 0 { cache := c₀, updated := false }
  rcases hR : runLoop p d 0 { cache := c₀, updated := false } fs with
    ⟨st, fs', evs⟩
  rw [hR] at h
  simp only [runMain, hR]
  exact h

/-- C3, counterexample: the Mapbox provider call passes no `timeout=`
argument to `session.get`, so it carries no finite timeout bound,
contradicting the claim that both concrete providers do. -/
theorem c3_counterexample :
    (mapboxRequest "token" "1600 Pennsylvania Ave").timeoutSeconds? =
      none := rfl

/-- C3 (amended): only the Nominatim provider carries the fixed 15-second
timeout (whose expiry raises and is treated as a `ProviderError`); the
Mapbox request specifies no timeout, so that call can block
indefinitely. -/
theorem c3_timeouts (token address : String) :
    (nominatimRequest address).timeoutSeconds? = some 15 ∧
    geocode_address_nominatim .exn = .error .requestException ∧
    (mapboxRequest token address).timeoutSeconds? = none ∧
    query_mapbox .exn = .error .requestException :=
  ⟨rfl, rfl, rfl, rfl⟩

/-- C4, counterexample: a 2xx Mapbox response whose body is a truthy JSON
object with an empty `features` list makes `query_mapbox` raise an
`IndexError` (indexing `[0]`), which surfaces as a `ProviderError` — it
does not return null as the claim states. -/
theorem c4_counterexample :
    query_mapbox (.response 200 (some (.dict (some [])))) =
      .error .indexError ∧
    query_mapbox (.response 200 (some (.dict (some [])))) ≠
      .ok none := by
  refine ⟨rfl, fun h => ?_⟩
  have h' : (Except.error ProviderError.indexError :
      Except ProviderError (Option Coordinates)) = .ok none := h
  exact Except.noConfusion h'

/-- C4 (amended): the Nominatim provider returns null exactly on a
successful response carrying an empty result list, while the Mapbox
provider returns null only when the whole response body is a falsy JSON
value; a truthy Mapbox body with an empty `features` list raises
(`IndexError` → `ProviderError`).  Network exceptions, non-2xx statuses
and malformed bodies raise `ProviderError` for both. -/
theorem c4_no_result_handling :
    (∀ s : Nat, raiseForStatus s = false →
      geocode_address_nominatim (.response s (some [])) = .ok none) ∧
    (∀ s : Nat, raiseForStatus s = false →
      query_mapbox (.response s (some .falsy)) = .ok none) ∧
    (∀ s : Nat, raiseForStatus s = false →
      query_mapbox (.response s (some (.dict (some [])))) =
        .error .indexError) ∧
    geocode_address_nominatim .exn = .error .requestException ∧
    query_mapbox .exn = .error .requestException ∧
    (∀ (s : Nat) (b : Option NominatimBody), raiseForStatus s = true →
      geocode_address_nominatim (.response s b) = .error (.httpStatus s)) ∧
    (∀ (s : Nat) (b : Option MapboxBody), raiseForStatus s = true →
      query_mapbox (.response s b) = .error (.httpStatus s)) ∧
    (∀ s : Nat, raiseForStatus s = false →
      geocode_address_nominatim (.response s none) = .error .jsonDecode) ∧
    (∀ s : Nat, raiseForStatus s = false →
      query_mapbox (.response s none) = .error .jsonDecode) := by
  refine ⟨fun s hs => ?_, fun s hs => ?_, fun s hs => ?_, rfl, rfl,
    fun s b hs => ?_, fun s b hs => ?_, fun s hs => ?_, fun s hs => ?_⟩ <;>
  simp [geocode_address_nominatim, query_mapbox, hs]

/-- C4, witness: the amended statement evaluated at status 200 and 404. -/
theorem c4_witness :
    raiseForStatus 200 = false ∧ raiseForStatus 404 = true ∧
    geocode_address_nominatim (.response 200 (some [])) = .ok none ∧
    query_mapbox (.response 200 (some (.dict (some [])))) =
      .error .indexError ∧
    query_mapbox (.response 404 none) = .error (.httpStatus 404) :=
  ⟨by decide, by decide, c4_no_result_handling.1 200 (by decide),
    c4_no_result_handling.2.2.1 200 (by decide),
    c4_no_result_handling.2.2.2.2.2.2.1 404 none (by decide)⟩


/-- C5, counterexample: a null entry already present in the loaded cache
under a key no record carries (`"X"`) survives into the cache file the run
writes — the run puts a fresh entry (so the file is rewritten) and the
stale null is serialized with it, contradicting the claim that no key in
the persisted cache maps to null for every initial cache contents. -/
theorem c5_counterexample :
    (runMain alwaysOk 2 [("X", none)] [facA]).savedCache =
      some [("X", none), (keyA, some ⟨7, 8⟩)] ∧
    ("X", (none : CacheValue)) ∈
      persistedAfter (runMain alwaysOk 2 [("X", none)] [facA])
        [("X", none)] := by
  exact ⟨rfl, by decide⟩

/-- C5 (amended): every value the run itself writes into the cache is a
well-formed coordinate pair, so if the loaded cache holds no null values
then the cache persisted after the run holds none either; a null value can
survive only by having been present in the loaded file already (under a
key the loop never cleans up, or because the file is not rewritten). -/
theorem c5_no_new_nulls (p : Nat → String → ProviderOutcome) (d : Nat)
    (c₀ : Cache) (fs : List Facility)
    (h : ∀ kv ∈ c₀, Option.isSome kv.2 = true) :
    ∀ kv ∈ persistedAfter (runMain p d c₀ fs) c₀,
      Option.isSome kv.2 = true := by
  have hv := runLoop_values_some p d fs 0 { cache := c₀, updated := false } h
  rcases hR : runLoop p d 0 { cache := c₀, updated := false } fs with
    ⟨st, fs', evs⟩
  rw [hR] at hv
  simp only at hv
  simp only [runMain, persistedAfter, hR]
  cases st.updated
  · simpa using h
  · simpa using hv

/-- C5, witness: the amended statement at a one-record run over a cache
with a single well-formed entry and a failing provider. -/
theorem c5_witness :
    (∀ kv ∈ ([("X", some ⟨1, 2⟩)] : Cache), Option.isSome kv.2 = true) ∧
    (∀ kv ∈ persistedAfter (runMain alwaysFail 2 [("X", some ⟨1, 2⟩)] [facA])
        [("X", some ⟨1, 2⟩)], Option.isSome kv.2 = true) :=
  ⟨by decide,
    c5_no_new_nulls alwaysFail 2 [("X", some ⟨1, 2⟩)] [facA] (by decide)⟩

/-- C6, counterexample: with a populated cache covering the record's key
and a provider stub that always fails, the output is not all-null — the
record receives the cached coordinates (the cache hit short-circuits the
failing provider), contradicting the claim's "identical output (all null
coordinates)". -/
theorem c6_counterexample :
    (runMain alwaysFail 2 [(keyA, some ⟨3, 4⟩)] [facA]).facilities =
      [{ facA with latitude := some 3, longitude := some 4 }] ∧
    ((runMain alwaysFail 2 [(keyA, some ⟨3, 4⟩)] [facA]).facilities.all
      fun fo => fo.latitude = none) = false := by
  exact ⟨rfl, rfl⟩

/-- C6 (amended): with a provider stub that always fails, the cache file
is never rewritten (no put can occur), so a second run starts from the
same persisted cache and produces the identical result; each record
receives the coordinates cached under its key when that entry is
well-formed, and null coordinates otherwise (records with an empty derived
key are always null). -/
theorem c6_idempotent_always_fail (d : Nat) (c₀ : Cache)
    (fs : List Facility) (hn : c₀.KeysNodup) :
    (runMain alwaysFail d c₀ fs).savedCache = none ∧
    runMain alwaysFail d
        (persistedAfter (runMain alwaysFail d c₀ fs) c₀) fs =
      runMain alwaysFail d c₀ fs ∧
    (∀ (j : Nat) (f : Facility), fs[j]? = some f →
      ∃ fo : Facility, (runMain alwaysFail d c₀ fs).facilities[j]? =
          some fo ∧
        fo.latitude = (if build_address f = "" then none
          else (c₀.lookupWF (build_address f)).map Coordinates.lat) ∧
        fo.longitude = (if build_address f = "" then none
          else (c₀.lookupWF (build_address f)).map Coordinates.lon)) := by
  have h := runLoop_alwaysFail d fs 0 { cache := c₀, updated := false } hn
  rcases hR : runLoop alwaysFail d 0 { cache := c₀, updated := false } fs with
    ⟨st, fs', evs⟩
  rw [hR] at h
  obtain ⟨hu, hn', hw, hr⟩ := h
  simp only at hu
  have hsaved : (runMain alwaysFail d c₀ fs).savedCache = none := by
    simp only [runMain, hR, hu]
    rfl
  refine ⟨hsaved, ?_, ?_⟩
  · rw [show persistedAfter (runMain alwaysFail d c₀ fs) c₀ = c₀ by
      rw [persistedAfter, hsaved]; rfl]
  · intro j f hj
    obtain ⟨fo, hfo, hfoeq⟩ := hr j f hj
    refine ⟨fo, ?_, ?_, ?_⟩
    · simp only [runMain, hR]
      exact hfo
    · rw [hfoeq]
    · rw [hfoeq]

/-- C6, witness: the amended statement at a one-record run whose key is
cached with a well-formed value. -/
theorem c6_witness :
    Cache.KeysNodup [(keyA, some ⟨3, 4⟩)] ∧
    (runMain alwaysFail 2 [(keyA, some ⟨3, 4⟩)] [facA]).savedCache =
      none ∧
    runMain alwaysFail 2
        (persistedAfter (runMain alwaysFail 2 [(keyA, some ⟨3, 4⟩)] [facA])
          [(keyA, some ⟨3, 4⟩)]) [facA] =
      runMain alwaysFail 2 [(keyA, some ⟨3, 4⟩)] [facA] ∧
    (∀ (j : Nat) (f : Facility), [facA][j]? = some f →
      ∃ fo : Facility,
        (runMain alwaysFail 2 [(keyA, some ⟨3, 4⟩)] [facA]).facilities[j]? =
          some fo ∧
        fo.latitude = (if build_address f = "" then none
          else (Cache.lookupWF [(keyA, some ⟨3, 4⟩)]
            (build_address f)).map Coordinates.lat) ∧
        fo.longitude = (if build_address f = "" then none
          else (Cache.lookupWF [(keyA, some ⟨3, 4⟩)]
            (build_address f)).map Coordinates.lon)) :=
  ⟨by simp [Cache.KeysNodup],
    c6_idempotent_always_fail 2 [(keyA, some ⟨3, 4⟩)] [facA]
      (by simp [Cache.KeysNodup])⟩

/-- C7, confirmed: a key `K` that the loaded cache maps to a well-formed
coordinate pair is never the subject of a provider call during the run,
and every record whose (necessarily non-empty, per §4.4 step 1) derived
key is `K` receives exactly the cached coordinates; no delay can be
attached to these records since the trace discipline lets a sleep follow
only a provider call. -/
theorem c7_cache_hit_short_circuit (p : Nat → String → ProviderOutcome)
    (d : Nat) (c₀ : Cache) (fs : List Facility) (K : String)
    (c : Coordinates) (hne : K ≠ "") (hK : c₀.lookup K = some (some c)) :
    (runMain p d c₀ fs).events.any (Event.isCallFor K) = false ∧
    (∀ (j : Nat) (f : Facility), fs[j]? = some f → build_address f = K →
      ∃ fo : Facility, (runMain p d c₀ fs).facilities[j]? = some fo ∧
        fo.latitude = some c.lat ∧ fo.longitude = some c.lon) := by
  have h := runLoop_wf_key p d K c hne fs 0 { cache := c₀, updated := false }
    hK
  rcases hR : runLoop p d 0 { cache := c₀, updated := false } fs with
    ⟨st, fs', evs⟩
  rw [hR] at h
  obtain ⟨_, he, hr⟩ := h
  exact ⟨by simp only [runMain, hR]; exact he,
    fun j f hj hf => by simp only [runMain, hR]; exact hr j f hj hf⟩

/-- C7, witness: the statement at a one-record run whose key is cached. -/
theorem c7_witness :
    keyA ≠ "" ∧
    Cache.lookup [(keyA, some ⟨3, 4⟩)] keyA = some (some ⟨3, 4⟩) ∧
    ((runMain alwaysFail 2 [(keyA, some ⟨3, 4⟩)] [facA]).events.any
        (Event.isCallFor keyA) = false ∧
    (∀ (j : Nat) (f : Facility), [facA][j]? = some f →
        build_address f = keyA →
      ∃ fo : Facility,
        (runMain alwaysFail 2 [(keyA, some ⟨3, 4⟩)] [facA]).facilities[j]? =
          some fo ∧
        fo.latitude = some (3 : Int) ∧ fo.longitude = some (4 : Int))) :=
  ⟨by decide, by decide,
    c7_cache_hit_short_circuit alwaysFail 2 [(keyA, some ⟨3, 4⟩)] [facA]
      keyA ⟨3, 4⟩ (by decide) (by decide)⟩


/-- C8, confirmed: no provider behavior can abort the run — with a
readable input, a readable-or-absent cache and writable outputs the stage
completes for every provider (every per-record exception is caught and the
loop reaches all records, so the output holds as many records as the
input); the fatal failures are exactly an unreadable input file
(`inputError`), a cache file that exists but cannot be parsed
(`persistenceError`), and an unwritable output (`outputError`). -/
theorem c8_failure_semantics :
    (∀ (μ : Type) (doc : Document μ) (c₀ : Cache)
      (p : Nat → String → ProviderOutcome) (d : Nat),
      ∃ out : StageOutput μ,
        runStage p d (.valid doc) (.valid c₀) true true = .ok out ∧
        out.outputDoc.facilities.length = doc.facilities.length) ∧
    (∀ (μ : Type) (doc : Document μ)
      (p : Nat → String → ProviderOutcome) (d : Nat),
      ∃ out : StageOutput μ,
        runStage p d (.valid doc) .missing true true = .ok out ∧
        out.outputDoc.facilities.length = doc.facilities.length) ∧
    (∀ (μ : Type) (doc : Document μ)
      (p : Nat → String → ProviderOutcome) (d : Nat) (ow cw : Bool),
      runStage p d (.valid doc) .corrupt ow cw = .error .persistenceError) ∧
    (∀ (μ : Type) (cf : FileState Cache)
      (p : Nat → String → ProviderOutcome) (d : Nat) (ow cw : Bool),
      runStage p d (FileState.missing : FileState (Document μ)) cf ow cw =
        .error .inputError) ∧
    (∀ (μ : Type) (cf : FileState Cache)
      (p : Nat → String → ProviderOutcome) (d : Nat) (ow cw : Bool),
      runStage p d (FileState.corrupt : FileState (Document μ)) cf ow cw =
        .error .inputError) ∧
    (∀ (μ : Type) (doc : Document μ) (c₀ : Cache)
      (p : Nat → String → ProviderOutcome) (d : Nat) (cw : Bool),
      runStage p d (.valid doc) (.valid c₀) false cw =
        .error .outputError) := by
  refine ⟨fun μ doc c₀ p d => ?_, fun μ doc p d => ?_,
    fun μ doc p d ow cw => rfl, fun μ cf p d ow cw => rfl,
    fun μ cf p d ow cw => rfl, fun μ doc c₀ p d cw => rfl⟩
  · refine ⟨⟨⟨(runMain p d c₀ doc.facilities).facilities, doc.metadata⟩,
      (runMain p d c₀ doc.facilities).savedCache⟩, ?_, ?_⟩
    · simp [runStage, load_cache]
    · exact runMain_length p d c₀ doc.facilities
  · refine ⟨⟨⟨(runMain p d [] doc.facilities).facilities, doc.metadata⟩,
      (runMain p d [] doc.facilities).savedCache⟩, ?_, ?_⟩
    · simp [runStage, load_cache]
    · exact runMain_length p d [] doc.facilities

/-- C9, confirmed: the written document keeps the metadata untouched and
holds exactly the input records, in order, each equal to its input record
except for the freshly assigned `latitude`/`longitude` fields. -/
theorem c9_order_and_frame (μ : Type) (doc : Document μ) (c₀ : Cache)
    (p : Nat → String → ProviderOutcome) (d : Nat) :
    ∃ out : StageOutput μ,
      runStage p d (.valid doc) (.valid c₀) true true = .ok out ∧
      out.outputDoc.metadata = doc.metadata ∧
      out.outputDoc.facilities.length = doc.facilities.length ∧
      (∀ (j : Nat) (f : Facility), doc.facilities[j]? = some f →
        ∃ la lo, out.outputDoc.facilities[j]? =
          some { f with latitude := la, longitude := lo }) := by
  refine ⟨⟨⟨(runMain p d c₀ doc.facilities).facilities, doc.metadata⟩,
      (runMain p d c₀ doc.facilities).savedCache⟩,
    ?_, rfl, runMain_length p d c₀ doc.facilities, ?_⟩
  · simp [runStage, load_cache]
  · exact fun j f hj => runMain_frame p d c₀ doc.facilities j f hj

/-- C9, witness: the statement instantiated at a one-record document. -/
theorem c9_witness :
    ∃ out : StageOutput Nat,
      runStage alwaysOk 2 (.valid ⟨[facA], 7⟩) (.valid []) true true =
        .ok out ∧
      out.outputDoc.metadata = (⟨[facA], 7⟩ : Document Nat).metadata ∧
      out.outputDoc.facilities.length =
        (⟨[facA], 7⟩ : Document Nat).facilities.length ∧
      (∀ (j : Nat) (f : Facility),
        (⟨[facA], 7⟩ : Document Nat).facilities[j]? = some f →
        ∃ la lo, out.outputDoc.facilities[j]? =
          some { f with latitude := la, longitude := lo }) :=
  c9_order_and_frame Nat ⟨[facA], 7⟩ [] alwaysOk 2

/-- C10, confirmed: a loaded-cache entry mapping a (non-empty) key `K` to
null is treated as a miss by the loop body: the provider is invoked for a
record with that key; on success the null entry is overwritten with the
result, and on failure (exception or no result) the entry is deleted. -/
theorem c10_null_entry_is_miss (p : Nat → String → ProviderOutcome)
    (d i : Nat) (st : LoopState) (f : Facility) (K : String)
    (hne : K ≠ "") (ha : build_address f = K)
    (hL : st.cache.lookup K = some none) (hn : st.cache.KeysNodup) :
    (processFacility p d i st f).2.2.any (Event.isCallFor K) = true ∧
    (processFacility p d i st f).1.cache.lookup K =
      (match p i K with
       | .ok c => some (some c)
       | _ => none) ∧
    (processFacility p d i st f).2.1.latitude =
      (match p i K with
       | .ok c => some c.lat
       | _ => none) := by
  subst ha
  rcases processFacility_cases p d i st f with
    ⟨ha', hc⟩ | ⟨c', ha', hL', hc⟩ | ⟨c', ha', hOr, ho, hc⟩ |
    ⟨ha', hL', ho, hc⟩ | ⟨ha', hL', ho, hc⟩ | ⟨ha', hL', ho, hc⟩ |
    ⟨ha', hL', ho, hc⟩
  · exact absurd ha' hne
  · rw [hL] at hL'
    simp at hL'
  · refine ⟨by simp [hc, Event.isCallFor], ?_, ?_⟩
    · rw [ho]
      simp only [hc]
      exact Cache.lookup_insert_self st.cache (build_address f) (some c')
    · rw [ho]
      simp [hc]
  · refine ⟨by simp [hc, Event.isCallFor], ?_, ?_⟩
    · rw [ho]
      simp only [hc]
      exact Cache.lookup_erase_self st.cache (build_address f) hn
    · rw [ho]
      simp [hc]
  · refine ⟨by simp [hc, Event.isCallFor], ?_, ?_⟩
    · rw [ho]
      simp only [hc]
      exact Cache.lookup_erase_self st.cache (build_address f) hn
    · rw [ho]
      simp [hc]
  · rw [hL] at hL'
    simp at hL'
  · rw [hL] at hL'
    simp at hL'

/-- C10, witness: the statement at a cache holding a null entry for the
record's key, with a succeeding provider. -/
theorem c10_witness :
    keyA ≠ "" ∧ build_address facA = keyA ∧
    Cache.lookup [(keyA, none)] keyA = some none ∧
    Cache.KeysNodup [(keyA, none)] ∧
    ((processFacility alwaysOk 2 0 ⟨[(keyA, none)], false⟩ facA).2.2.any
        (Event.isCallFor keyA) = true ∧
    (processFacility alwaysOk 2 0 ⟨[(keyA, none)], false⟩ facA).1.cache.lookup
        keyA =
      (match alwaysOk 0 keyA with
       | .ok c => some (some c)
       | _ => none) ∧
    (processFacility alwaysOk 2 0 ⟨[(keyA, none)], false⟩ facA).2.1.latitude =
      (match alwaysOk 0 keyA with
       | .ok c => some c.lat
       | _ => none)) :=
  ⟨by decide, by decide, by decide, by simp [Cache.KeysNodup],
    c10_null_entry_is_miss alwaysOk 2 0 ⟨[(keyA, none)], false⟩ facA keyA
      (by decide) (by decide) (by decide) (by simp [Cache.KeysNodup])⟩

end Icewatch
